/-
Verification of the `bore` relay server (`src/server.rs`) against its
natural-language specification.

The development is a shallow embedding: the pure decision logic of
`Server::create_listener`, `Server::handle_connection`, the spawned
listener-task loop body, the pending-connection expiry task, and the
top-level `Server::listen` acceptor loop are translated into executable
Lean functions.  Interactions with the operating system and the peers
(bind results, accept outcomes, message-send outcomes, random draws)
are passed in as explicit environment parameters, and the observable
actions of each code path are collected into an event trace.
-/
import Mathlib

set_option autoImplicit false

namespace Bore

/-- TCP port numbers (u16 in the source). -/
abbrev Port := Nat

/-- Opaque network (socket) addresses: `std::net::SocketAddr` in the source. -/
abbrev Addr := Nat

/-- Opaque task identifiers standing for `tokio::task::JoinHandle<()>`. -/
abbrev TaskId := Nat

/-- Connection identifiers (`uuid::Uuid`, 128-bit v4 in the source). -/
abbrev Uuid := Nat

/-- Opaque handles for raw TCP sockets (`TcpStream`). -/
abbrev Conn := Nat

/-- A single byte. -/
abbrev Byte := Nat

/-! ### Association-list maps

`DashMap` in the source is a concurrent hash map with atomic per-key
entry removal and insertion.  We model each map as an association list
with unique keys; `mapRemove` removes every binding of the key, which
coincides with `DashMap::remove` on well-formed (duplicate-free) maps. -/

/-- Look up the first binding of key `k`, as `DashMap::get`/the lookup half
of `DashMap::remove`. -/
def mapLookup {α β : Type} [DecidableEq α] : List (α × β) → α → Option β
  | [], _ => none
  | (a, b) :: rest, k => if a = k then some b else mapLookup rest k

/-- Remove all bindings of key `k`, as the removal half of `DashMap::remove`. -/
def mapRemove {α β : Type} [DecidableEq α] : List (α × β) → α → List (α × β)
  | [], _ => []
  | (a, b) :: rest, k =>
    if a = k then mapRemove rest k else (a, b) :: mapRemove rest k

/-- Insert-or-replace, as `DashMap::insert`. -/
def mapInsert {α β : Type} [DecidableEq α] (m : List (α × β)) (k : α) (v : β) :
    List (α × β) :=
  (k, v) :: mapRemove m k

theorem mapLookup_mapRemove_self {α β : Type} [DecidableEq α]
    (m : List (α × β)) (k : α) : mapLookup (mapRemove m k) k = none := by
  induction m with
  | nil => rfl
  | cons hd tl ih =>
    obtain ⟨a, b⟩ := hd
    by_cases h : a = k <;> simp [mapRemove, mapLookup, h, ih]

theorem mapLookup_mapRemove_ne {α β : Type} [DecidableEq α]
    (m : List (α × β)) (k k' : α) (h : k' ≠ k) :
    mapLookup (mapRemove m k) k' = mapLookup m k' := by
  induction m with
  | nil => rfl
  | cons hd tl ih =>
    obtain ⟨a, b⟩ := hd
    simp only [mapRemove]
    by_cases ha : a = k
    · rw [if_pos ha, ih, mapLookup, if_neg (fun hak => h (hak.symm.trans ha))]
    · rw [if_neg ha, mapLookup, mapLookup]
      by_cases ha' : a = k'
      · rw [if_pos ha', if_pos ha']
      · rw [if_neg ha', if_neg ha', ih]

theorem mapLookup_mapInsert_self {α β : Type} [DecidableEq α]
    (m : List (α × β)) (k : α) (v : β) : mapLookup (mapInsert m k v) k = some v := by
  simp [mapInsert, mapLookup]

theorem mapLookup_mapInsert_ne {α β : Type} [DecidableEq α]
    (m : List (α × β)) (k k' : α) (v : β) (h : k' ≠ k) :
    mapLookup (mapInsert m k v) k' = mapLookup m k' := by
  simp only [mapInsert, mapLookup]
  rw [if_neg (fun hk : k = k' => h hk.symm), mapLookup_mapRemove_ne m k k' h]

/-! ### Port allocator: `Server::create_listener` -/

/-- `std::io::ErrorKind` values distinguished by `create_listener`. -/
inductive IOErrorKind where
  | addrInUse
  | permissionDenied
  | other
deriving DecidableEq

/-- The operating-system bind oracle: for each port, `none` means
`TcpListener::bind` succeeds, `some k` means it fails with error kind `k`. -/
structure BindEnv where
  bindResult : Port → Option IOErrorKind

/-- The administrator-configured inclusive port range (`RangeInclusive<u16>`). -/
structure PortRange where
  lo : Port
  hi : Port
deriving DecidableEq

/-- `RangeInclusive::contains`. -/
def PortRange.mem (r : PortRange) (p : Port) : Bool :=
  decide (r.lo ≤ p) && decide (p ≤ r.hi)

/-- Error-kind classification performed by the `try_bind` closure in
`create_listener`. -/
def classifyBindErr : IOErrorKind → String
  | .addrInUse => "port already in use"
  | .permissionDenied => "permission denied"
  | .other => "failed to bind to port"

/-- The `try_bind` closure: attempt to bind one port, classifying failure.
On success the bound listener is represented by its port number. -/
def tryBind (env : BindEnv) (port : Port) : Except String Port :=
  match env.bindResult port with
  | none => Except.ok port
  | some k => Except.error (classifyBindErr k)

/-- The random-port loop of `create_listener` for a requested port of zero:
`fuel` attempts remain, the next random draw is `rand i` (the source draws
`fastrand::u16(port_range)` each iteration; `rand` enumerates those draws).
Returns the result together with the list of ports actually attempted. -/
def bindAnyLoop (env : BindEnv) (rand : Nat → Port) (i : Nat) :
    Nat → Except String Port × List Port
  | 0 => (Except.error "failed to find an available port", [])
  | fuel + 1 =>
    match tryBind env (rand i) with
    | Except.ok p => (Except.ok p, [rand i])
    | Except.error _ =>
      let r := bindAnyLoop env rand (i + 1) fuel
      (r.1, rand i :: r.2)

/-- `Server::create_listener`, instrumented with the list of ports on which a
bind was attempted.  A nonzero requested port must lie in the configured
range and is attempted exactly once; a requested port of zero runs the
150-attempt random loop. -/
def create_listener (env : BindEnv) (range : PortRange) (rand : Nat → Port)
    (port : Port) : Except String Port × List Port :=
  if 0 < port then
    if ¬ (range.mem port) then
      (Except.error "client port number not in allowed range", [])
    else
      (tryBind env port, [port])
  else
    bindAnyLoop env rand 0 150

theorem bindAnyLoop_attempts (env : BindEnv) (rand : Nat → Port) (fuel : Nat) :
    ∀ i, ∃ n, n ≤ fuel ∧
      (bindAnyLoop env rand i fuel).2 = (List.range n).map (fun k => rand (i + k)) := by
  induction fuel with
  | zero => exact fun i => ⟨0, Nat.le_refl 0, rfl⟩
  | succ fuel ih =>
    intro i
    cases hri : env.bindResult (rand i) with
    | none =>
      refine ⟨1, by omega, ?_⟩
      simp [bindAnyLoop, tryBind, hri, List.range_succ]
    | some k =>
      obtain ⟨n, hn, he⟩ := ih (i + 1)
      refine ⟨n + 1, by omega, ?_⟩
      simp only [bindAnyLoop, tryBind, hri]
      rw [he, List.range_succ_eq_map, List.map_cons, List.map_map]
      have hfg : ((fun k => rand (i + k)) ∘ Nat.succ) = fun k => rand (i + 1 + k) := by
        funext k
        simp only [Function.comp]
        congr 1
        omega
      rw [hfg]
      rfl

theorem bindAnyLoop_all_fail (env : BindEnv) (rand : Nat → Port)
    (hall : ∀ p, env.bindResult p ≠ none) (fuel : Nat) :
    ∀ i, (bindAnyLoop env rand i fuel).1 = Except.error "failed to find an available port" ∧
      (bindAnyLoop env rand i fuel).2.length = fuel := by
  induction fuel with
  | zero => exact fun i => ⟨rfl, rfl⟩
  | succ fuel ih =>
    intro i
    cases hri : env.bindResult (rand i) with
    | none => exact absurd hri (hall (rand i))
    | some k =>
      obtain ⟨h1, h2⟩ := ih (i + 1)
      constructor
      · simp only [bindAnyLoop, tryBind, hri]
        exact h1
      · simp only [bindAnyLoop, tryBind, hri, List.length_cons]
        rw [h2]

theorem bindAnyLoop_success (env : BindEnv) (rand : Nat → Port) (fuel : Nat) :
    ∀ i m, m < fuel →
      (∀ j, i ≤ j → j < i + m → env.bindResult (rand j) ≠ none) →
      env.bindResult (rand (i + m)) = none →
      (bindAnyLoop env rand i fuel).1 = Except.ok (rand (i + m)) := by
  induction fuel with
  | zero => intro i m hm; omega
  | succ fuel ih =>
    intro i m hm hfail hsucc
    cases m with
    | zero =>
      rw [Nat.add_zero] at hsucc
      simp only [bindAnyLoop, tryBind, hsucc]
      rfl
    | succ m =>
      have hi : env.bindResult (rand i) ≠ none := hfail i (Nat.le_refl i) (by omega)
      cases hri : env.bindResult (rand i) with
      | none => exact absurd hri hi
      | some k =>
        simp only [bindAnyLoop, tryBind, hri]
        have harith : i + 1 + m = i + (m + 1) := by omega
        have := ih (i + 1) m (by omega)
          (fun j h1 h2 => hfail j (by omega) (by omega))
          (by rw [harith]; exact hsucc)
        rw [harith] at this
        exact this

/-- C2: for a nonzero requested port, allocation fails with the out-of-range
error (attempting no bind) when the port is outside the configured range;
inside the range exactly that port is attempted once, succeeding when the
bind oracle reports it available and otherwise failing with the bind error
classified as address-in-use, permission-denied, or the generic failure. -/
theorem create_listener_requested_port_spec (env : BindEnv) (range : PortRange)
    (rand : Nat → Port) (p : Port) (hp : 0 < p) :
    (range.mem p = false →
      create_listener env range rand p =
        (Except.error "client port number not in allowed range", [])) ∧
    (range.mem p = true →
      (create_listener env range rand p).2 = [p] ∧
      (env.bindResult p = none → (create_listener env range rand p).1 = Except.ok p) ∧
      (∀ k, env.bindResult p = some k →
        (create_listener env range rand p).1 = Except.error (classifyBindErr k))) := by
  refine ⟨fun hmem => ?_, fun hmem => ⟨?_, fun hb => ?_, fun k hb => ?_⟩⟩
  · simp [create_listener, hp, hmem]
  · simp [create_listener, hp, hmem]
  · simp [create_listener, hp, hmem, tryBind, hb]
  · simp [create_listener, hp, hmem, tryBind, hb]

/-- An environment where every bind attempt succeeds. -/
def envAllFree : BindEnv := ⟨fun _ => none⟩

/-- An environment where every bind attempt fails with address-in-use. -/
def envAllBusy : BindEnv := ⟨fun _ => some IOErrorKind.addrInUse⟩

theorem create_listener_requested_port_spec_witness :
    create_listener envAllFree ⟨10, 20⟩ (fun _ => 15) 25 =
      (Except.error "client port number not in allowed range", []) ∧
    (create_listener envAllFree ⟨10, 20⟩ (fun _ => 15) 15).1 = Except.ok 15 ∧
    (create_listener envAllBusy ⟨10, 20⟩ (fun _ => 15) 15).1 =
      Except.error "port already in use" :=
  ⟨(create_listener_requested_port_spec envAllFree ⟨10, 20⟩ (fun _ => 15) 25
      (by decide)).1 (by decide),
   ((create_listener_requested_port_spec envAllFree ⟨10, 20⟩ (fun _ => 15) 15
      (by decide)).2 (by decide)).2.1 rfl,
   ((create_listener_requested_port_spec envAllBusy ⟨10, 20⟩ (fun _ => 15) 15
      (by decide)).2 (by decide)).2.2 IOErrorKind.addrInUse rfl⟩

/-- C3: for a requested port of zero, allocation makes at most 150 bind
attempts, the j-th attempted port being the j-th random draw (hence inside
the configured range whenever the draws are); it returns the first
successful bind, and when every bind fails it makes exactly 150 attempts
and returns the no-port-available error. -/
theorem create_listener_any_port_spec (env : BindEnv) (range : PortRange)
    (rand : Nat → Port) :
    (∃ n, n ≤ 150 ∧ (create_listener env range rand 0).2 = (List.range n).map rand) ∧
    ((∀ i, range.mem (rand i) = true) →
      ∀ p ∈ (create_listener env range rand 0).2, range.mem p = true) ∧
    ((∀ p, env.bindResult p ≠ none) →
      (create_listener env range rand 0).1 =
        Except.error "failed to find an available port" ∧
      (create_listener env range rand 0).2.length = 150) ∧
    (∀ m, m < 150 → (∀ j, j < m → env.bindResult (rand j) ≠ none) →
      env.bindResult (rand m) = none →
      (create_listener env range rand 0).1 = Except.ok (rand m)) := by
  have hzero : create_listener env range rand 0 = bindAnyLoop env rand 0 150 := by
    simp [create_listener]
  have hattempts : ∃ n, n ≤ 150 ∧
      (create_listener env range rand 0).2 = (List.range n).map rand := by
    obtain ⟨n, hn, he⟩ := bindAnyLoop_attempts env rand 150 0
    refine ⟨n, hn, ?_⟩
    rw [hzero, he]
    have : (fun k => rand (0 + k)) = rand := by
      funext k
      rw [Nat.zero_add]
    rw [this]
  refine ⟨hattempts, fun hin p hp => ?_, fun hall => ?_, fun m hm hfail hsucc => ?_⟩
  · obtain ⟨n, hn, he⟩ := hattempts
    rw [he] at hp
    obtain ⟨j, hj, rfl⟩ := List.mem_map.mp hp
    exact hin j
  · rw [hzero]
    exact bindAnyLoop_all_fail env rand hall 150 0
  · rw [hzero]
    have := bindAnyLoop_success env rand 150 0 m hm
      (fun j h1 h2 => hfail j (by omega)) (by rw [Nat.zero_add]; exact hsucc)
    rw [Nat.zero_add] at this
    exact this

theorem create_listener_any_port_spec_witness :
    (create_listener envAllBusy ⟨10, 20⟩ (fun _ => 15) 0).1 =
      Except.error "failed to find an available port" ∧
    (create_listener envAllFree ⟨10, 20⟩ (fun _ => 15) 0).1 = Except.ok 15 :=
  ⟨((create_listener_any_port_spec envAllBusy ⟨10, 20⟩ (fun _ => 15)).2.2.1
      (fun p h => by simp [envAllBusy] at h)).1,
   (create_listener_any_port_spec envAllFree ⟨10, 20⟩ (fun _ => 15)).2.2.2 0
      (by decide) (fun j hj => by omega) rfl⟩

/-! ### Server state and observable events -/

/-- The shared mutable state of `Server` touched by the handler paths:
the pending-connection registry `conns`, the port-ownership table
`port_owners`, and (for the model) the set of task handles on which
`JoinHandle::abort` has been called. -/
structure ServerState where
  conns : List (Uuid × Conn)
  port_owners : List ((Port × Addr) × TaskId)
  aborted : List TaskId
deriving DecidableEq

/-- Observable actions of the handler, listener-loop, and claim paths, in
program order. -/
inductive Event where
  | abortListener (t : TaskId)
  | bindPort (p : Port)
  | sendError (msg : String)
  | sendHello (p : Port)
  | spawnListener (t : TaskId)
  | installOwner (p : Port) (a : Addr) (t : TaskId)
  | heartbeat
  | acceptWait (ms : Nat)
  | insertConn (id : Uuid)
  | scheduleExpiry (id : Uuid) (ttlSecs : Nat)
  | sendConnection (id : Uuid)
  | warnUnexpectedAuth
  | warnMissing (id : Uuid)
  | assertWriteBuf (empty : Bool)
  | writeBytes (bytes : List Byte)
  | relayRun (toVisitor toClaimer : List Byte)
deriving DecidableEq

/-- The first protocol message on a control connection (`ClientMessage`). -/
inductive ClientMessage where
  | authenticate (tag : String)
  | hello (port : Port)
  | accept (id : Uuid)
deriving DecidableEq

/-- The parts recovered from the framed stream by `Delimited::into_parts`:
the raw socket, the already-read-but-unconsumed bytes, and the pending
write buffer. -/
structure StreamParts where
  io : Conn
  read_buf : List Byte
  write_buf : List Byte
deriving DecidableEq

/-- Modelled from the spec: the bidirectional byte-relay primitive `proxy`
lives in the shared module (`src/shared.rs`), which is not part of the
sources under verification.  Per the spec it splices two sockets into a
single bidirectional relay that copies until either side closes or errors;
given the bytes each side sends before closing, it delivers each side's
bytes to the other. -/
def proxy (aSend bSend : List Byte) : List Byte × List Byte :=
  (bSend, aSend)

/-- Environment of the `Hello` branch of `handle_connection`: the bind
oracle and configuration consumed by `create_listener`, the fresh task id
allocated by `tokio::spawn`, and whether sending the `Hello` reply on the
control channel succeeds. -/
structure HelloEnv where
  bindEnv : BindEnv
  range : PortRange
  rand : Nat → Port
  newTask : TaskId
  helloSendOk : Bool

/-- The `ClientMessage::Hello(port)` branch of `handle_connection`
(src/server.rs lines 140-192): evict and abort any prior owner of
`(requested_port, remote_addr)`, allocate a listener, reply with the
assigned port or an error, spawn the listener task, and install its handle
under `(assigned_port, remote_addr)` — each peer-address-dependent step
skipped when the peer address is unknown. -/
def handleHello (env : HelloEnv) (remoteAddr : Option Addr) (q : Port)
    (st : ServerState) : ServerState × List Event :=
  let evicted :=
    match remoteAddr with
    | none => (st, ([] : List Event))
    | some addr =>
      match mapLookup st.port_owners (q, addr) with
      | some h =>
        ({ st with port_owners := mapRemove st.port_owners (q, addr),
                   aborted := h :: st.aborted },
         [Event.abortListener h])
      | none => (st, [])
  let st1 := evicted.1
  let evs1 := evicted.2
  match (create_listener env.bindEnv env.range env.rand q).1 with
  | Except.error msg => (st1, evs1 ++ [Event.sendError msg])
  | Except.ok p =>
    if env.helloSendOk then
      match remoteAddr with
      | none =>
        (st1, evs1 ++ [Event.bindPort p, Event.sendHello p,
                       Event.spawnListener env.newTask])
      | some addr =>
        ({ st1 with port_owners := mapInsert st1.port_owners (p, addr) env.newTask },
         evs1 ++ [Event.bindPort p, Event.sendHello p,
                  Event.spawnListener env.newTask,
                  Event.installOwner p addr env.newTask])
    else
      (st1, evs1 ++ [Event.bindPort p, Event.sendHello p])

/-- The `ClientMessage::Accept(id)` branch of `handle_connection`
(src/server.rs lines 194-206): remove the pending connection, assert the
framed write buffer empty, flush the read-ahead bytes to the visitor
socket, then splice the two sockets; an unknown id only logs a warning.
`ioSend`/`visitorSend` are the bytes each socket will carry during the
relay. -/
def handleAccept (parts : StreamParts) (ioSend visitorSend : List Byte)
    (id : Uuid) (st : ServerState) : ServerState × List Event :=
  match mapLookup st.conns id with
  | some _ =>
    ({ st with conns := mapRemove st.conns id },
     [Event.assertWriteBuf parts.write_buf.isEmpty,
      Event.writeBytes parts.read_buf,
      Event.relayRun (parts.read_buf ++ (proxy ioSend visitorSend).2)
        (proxy ioSend visitorSend).1])
  | none => (st, [Event.warnMissing id])

/-- The post-authentication dispatch of `handle_connection` on the first
protocol message (src/server.rs lines 135-208). -/
def handle_connection (env : HelloEnv) (remoteAddr : Option Addr)
    (parts : StreamParts) (ioSend visitorSend : List Byte)
    (msg : Option ClientMessage) (st : ServerState) : ServerState × List Event :=
  match msg with
  | some (ClientMessage.authenticate _) => (st, [Event.warnUnexpectedAuth])
  | some (ClientMessage.hello q) => handleHello env remoteAddr q st
  | some (ClientMessage.accept id) => handleAccept parts ioSend visitorSend id st
  | none => (st, [])

/-! ### The listener-task loop -/

/-- The accept timeout used in the listener loop (`TIMEOUT`, 500 ms). -/
def TIMEOUT_MS : Nat := 500

/-- The pending-connection time-to-live (`sleep(Duration::from_secs(10))`). -/
def EXPIRY_TTL_SECS : Nat := 10

/-- Outcome of the bounded `timeout(TIMEOUT, listener.accept())` call. -/
inductive AcceptOutcome where
  | timedOut
  | accepted (c : Conn) (a : Addr)
  | failed
deriving DecidableEq

/-- Environment of one listener-loop iteration: whether the heartbeat send
succeeds, the bounded-accept outcome, the fresh `Uuid::new_v4` identifier,
and whether the `Connection` notification send succeeds. -/
structure LoopEnv where
  heartbeatOk : Bool
  acceptOutcome : AcceptOutcome
  newId : Uuid
  notifyOk : Bool

/-- How one listener-loop iteration ends. -/
inductive LoopOutcome where
  | ended
  | continuing
  | panicked
deriving DecidableEq

/-- One iteration of the spawned listener-task loop (src/server.rs lines
167-186): heartbeat first, breaking if its send fails; then a 500 ms
bounded accept, looping on timeout; a failed accept is `unwrap`ped (panic);
a successful accept registers the connection, schedules its expiry, and
fire-and-forget notifies the client. -/
def listenerLoopIter (env : LoopEnv) (st : ServerState) :
    LoopOutcome × ServerState × List Event :=
  if env.heartbeatOk then
    match env.acceptOutcome with
    | AcceptOutcome.timedOut =>
      (LoopOutcome.continuing, st, [Event.heartbeat, Event.acceptWait TIMEOUT_MS])
    | AcceptOutcome.failed =>
      (LoopOutcome.panicked, st, [Event.heartbeat, Event.acceptWait TIMEOUT_MS])
    | AcceptOutcome.accepted c _ =>
      (LoopOutcome.continuing,
       { st with conns := mapInsert st.conns env.newId c },
       [Event.heartbeat, Event.acceptWait TIMEOUT_MS,
        Event.insertConn env.newId,
        Event.scheduleExpiry env.newId EXPIRY_TTL_SECS,
        Event.sendConnection env.newId])
  else
    (LoopOutcome.ended, st, [Event.heartbeat])

/-! ### Registry claim and expiry -/

/-- The claim-side removal `self.conns.remove(&id)` (src/server.rs line
196): atomically take the pending socket if present. -/
def claimConn (conns : List (Uuid × Conn)) (id : Uuid) :
    Option Conn × List (Uuid × Conn) :=
  match mapLookup conns id with
  | some c => (some c, mapRemove conns id)
  | none => (none, conns)

/-- The body of the expiry task (src/server.rs lines 178-183) after its
10-second sleep: `if conns2.remove(&id).is_some()` log a warning.  Returns
whether the warning was logged together with the updated registry. -/
def expireConn (conns : List (Uuid × Conn)) (id : Uuid) :
    Bool × List (Uuid × Conn) :=
  match mapLookup conns id with
  | some _ => (true, mapRemove conns id)
  | none => (false, conns)

/-! ### The top-level acceptor loop `Server::listen` -/

/-- One event observed by the acceptor loop: an accepted control connection
whose detached handler succeeds or fails, or a failed `accept` call. -/
inductive AcceptEvent where
  | conn (handlerErr : Bool)
  | acceptErr
deriving DecidableEq

/-- How the modelled run of `Server::listen` stands after consuming its
event list. -/
inductive ListenResult where
  | running
  | fatalBindErr
  | fatalAcceptErr
deriving DecidableEq

/-- Log lines the acceptor's spawned wrapper emits per handler. -/
inductive ListenEvent where
  | warnConnErr
  | connExited
deriving DecidableEq

/-- The `loop` of `Server::listen` (src/server.rs lines 68-82): each
accepted connection is handled in a detached task whose error is only
logged, while a failed `accept().await?` propagates out of `listen`. -/
def acceptLoop : List AcceptEvent → ListenResult × List ListenEvent
  | [] => (ListenResult.running, [])
  | AcceptEvent.conn e :: rest =>
    let r := acceptLoop rest
    (r.1, (if e then ListenEvent.warnConnErr else ListenEvent.connExited) :: r.2)
  | AcceptEvent.acceptErr :: _ => (ListenResult.fatalAcceptErr, [])

/-- `Server::listen` (src/server.rs lines 63-83): bind the fixed control
port (failure propagates with `?`), then run the acceptor loop over the
given sequence of accept outcomes. -/
def listen (bindOk : Bool) (evs : List AcceptEvent) :
    ListenResult × List ListenEvent :=
  if bindOk then acceptLoop evs else (ListenResult.fatalBindErr, [])

/-! ### Claims about the Hello branch -/

/-- C1 counterexample: a client that established a tunnel by requesting
port 0 (assigned port 7, listener task 3) reconnects from the same address
requesting port 0 again.  The eviction checks key `(0, addr)`, which never
holds the prior handle (installed under its assigned port), so the prior
listener is neither aborted nor removed: the reconnect does not cancel the
previous tunnel's listener. -/
theorem hello_port_zero_reconnect_keeps_prior :
    handleHello ⟨envAllFree, ⟨1, 10⟩, fun _ => 9, 5, true⟩ (some 0) 0
        ⟨[], [((7, 0), 3)], []⟩ =
      (⟨[], [((9, 0), 5), ((7, 0), 3)], []⟩,
       [Event.bindPort 9, Event.sendHello 9, Event.spawnListener 5,
        Event.installOwner 9 0 5]) := by
  decide

/-- C1 amended: on a Hello request from a known client address, any prior
listener found under `(requested_port, address)` is aborted strictly before
the new listener is bound and its handle installed — the abort is the very
first action of the branch — and for a nonzero in-range requested port the
new handle ends up as the sole entry under that key.  (For requested port
zero the eviction key `(0, address)` never holds the prior listener, so a
port-zero reconnect cancels nothing.) -/
theorem hello_prior_owner_aborted_before_install (env : HelloEnv) (addr : Addr)
    (q : Port) (st : ServerState) (h : TaskId)
    (hfound : mapLookup st.port_owners (q, addr) = some h) :
    (handleHello env (some addr) q st).2.head? = some (Event.abortListener h) ∧
    (handleHello env (some addr) q st).1.aborted = h :: st.aborted ∧
    (0 < q → env.range.mem q = true → env.bindEnv.bindResult q = none →
      env.helloSendOk = true →
      (handleHello env (some addr) q st).2 =
        [Event.abortListener h, Event.bindPort q, Event.sendHello q,
         Event.spawnListener env.newTask, Event.installOwner q addr env.newTask] ∧
      mapLookup (handleHello env (some addr) q st).1.port_owners (q, addr) =
        some env.newTask) := by
  have hbranch : ∀ r : Except String Port × List Port,
      r = create_listener env.bindEnv env.range env.rand q →
      (handleHello env (some addr) q st).2.head? = some (Event.abortListener h) ∧
      (handleHello env (some addr) q st).1.aborted = h :: st.aborted := by
    intro r hr
    simp only [handleHello, hfound]
    cases hc : (create_listener env.bindEnv env.range env.rand q).1 with
    | error msg => exact ⟨rfl, rfl⟩
    | ok p =>
      cases hsend : env.helloSendOk with
      | false => exact ⟨rfl, rfl⟩
      | true => exact ⟨rfl, rfl⟩
  refine ⟨(hbranch _ rfl).1, (hbranch _ rfl).2, fun hq hmem hbind hsend => ?_⟩
  have hcl : (create_listener env.bindEnv env.range env.rand q).1 = Except.ok q := by
    simp [create_listener, hq, hmem, tryBind, hbind]
  constructor
  · simp only [handleHello, hfound, hcl, hsend]
    rfl
  · simp only [handleHello, hfound, hcl, hsend]
    exact mapLookup_mapInsert_self _ _ _

theorem hello_prior_owner_aborted_before_install_witness :
    (handleHello ⟨envAllFree, ⟨1, 10⟩, fun _ => 9, 5, true⟩ (some 0) 7
        ⟨[], [((7, 0), 3)], []⟩).2 =
      [Event.abortListener 3, Event.bindPort 7, Event.sendHello 7,
       Event.spawnListener 5, Event.installOwner 7 0 5] ∧
    mapLookup (handleHello ⟨envAllFree, ⟨1, 10⟩, fun _ => 9, 5, true⟩ (some 0) 7
        ⟨[], [((7, 0), 3)], []⟩).1.port_owners (7, 0) = some 5 :=
  (hello_prior_owner_aborted_before_install ⟨envAllFree, ⟨1, 10⟩, fun _ => 9, 5, true⟩
      0 7 ⟨[], [((7, 0), 3)], []⟩ 3 rfl).2.2 (by decide) (by decide) rfl rfl

/-- C10: a Hello request on a connection whose peer address cannot be
determined still establishes the tunnel (port bound, Hello reply, listener
task spawned) but leaves the server state — in particular the
port-ownership table — entirely unchanged: nothing is evicted and the new
handle is never installed, so no later lookup of the table can ever find
the new task's handle if it was not there before. -/
theorem hello_unknown_peer_no_table_change (env : HelloEnv) (q : Port)
    (st : ServerState) (p : Port)
    (hbind : (create_listener env.bindEnv env.range env.rand q).1 = Except.ok p)
    (hsend : env.helloSendOk = true) :
    handleHello env none q st =
      (st, [Event.bindPort p, Event.sendHello p, Event.spawnListener env.newTask]) ∧
    (∀ k, mapLookup st.port_owners k ≠ some env.newTask →
      mapLookup (handleHello env none q st).1.port_owners k ≠ some env.newTask) := by
  have hmain : handleHello env none q st =
      (st, [Event.bindPort p, Event.sendHello p, Event.spawnListener env.newTask]) := by
    simp only [handleHello, hbind, hsend]
    rfl
  exact ⟨hmain, fun k hk => by rw [hmain]; exact hk⟩

theorem hello_unknown_peer_no_table_change_witness :
    handleHello ⟨envAllFree, ⟨1, 10⟩, fun _ => 9, 5, true⟩ none 7
        ⟨[], [((7, 0), 3)], []⟩ =
      (⟨[], [((7, 0), 3)], []⟩,
       [Event.bindPort 7, Event.sendHello 7, Event.spawnListener 5]) :=
  (hello_unknown_peer_no_table_change ⟨envAllFree, ⟨1, 10⟩, fun _ => 9, 5, true⟩
      7 ⟨[], [((7, 0), 3)], []⟩ 7 rfl rfl).1

/-! ### Claims about the listener-task loop -/

/-- C6: every listener-loop iteration sends the heartbeat first; it ends
the loop exactly when that send fails, touching neither the port-ownership
table nor (on ending or timeout) the registry; a timeout just loops; a
successful accept inserts the fresh identifier, schedules its 10-second
expiry, and sends the Connection notification, whose outcome
(`env.notifyOk`) never affects the iteration. -/
theorem listener_loop_iteration_spec (env : LoopEnv) (st : ServerState) :
    (listenerLoopIter env st).2.2.head? = some Event.heartbeat ∧
    ((listenerLoopIter env st).1 = LoopOutcome.ended ↔ env.heartbeatOk = false) ∧
    (listenerLoopIter env st).2.1.port_owners = st.port_owners ∧
    (env.heartbeatOk = false →
      listenerLoopIter env st = (LoopOutcome.ended, st, [Event.heartbeat])) ∧
    (env.heartbeatOk = true → env.acceptOutcome = AcceptOutcome.timedOut →
      listenerLoopIter env st =
        (LoopOutcome.continuing, st, [Event.heartbeat, Event.acceptWait 500])) ∧
    (∀ c a, env.heartbeatOk = true → env.acceptOutcome = AcceptOutcome.accepted c a →
      listenerLoopIter env st =
        (LoopOutcome.continuing,
         { st with conns := mapInsert st.conns env.newId c },
         [Event.heartbeat, Event.acceptWait 500, Event.insertConn env.newId,
          Event.scheduleExpiry env.newId 10, Event.sendConnection env.newId])) ∧
    (∀ b, listenerLoopIter ⟨env.heartbeatOk, env.acceptOutcome, env.newId, b⟩ st =
      listenerLoopIter env st) := by
  obtain ⟨hb, ao, nid, nok⟩ := env
  cases hb <;> cases ao <;>
    simp [listenerLoopIter, TIMEOUT_MS, EXPIRY_TTL_SECS]

theorem listener_loop_iteration_spec_witness :
    listenerLoopIter ⟨true, AcceptOutcome.accepted 42 8, 99, false⟩ ⟨[], [], []⟩ =
      (LoopOutcome.continuing, ⟨[(99, 42)], [], []⟩,
       [Event.heartbeat, Event.acceptWait 500, Event.insertConn 99,
        Event.scheduleExpiry 99 10, Event.sendConnection 99]) :=
  (listener_loop_iteration_spec ⟨true, AcceptOutcome.accepted 42 8, 99, false⟩
      ⟨[], [], []⟩).2.2.2.2.2.1 42 8 rfl rfl

/-- C9: when the bounded accept completes within the 500 ms window but the
accept itself returns an I/O error, the listener loop `unwrap`s the error
result and the task panics. -/
theorem listener_accept_error_panics (st : ServerState) (id : Uuid) (b : Bool) :
    listenerLoopIter ⟨true, AcceptOutcome.failed, id, b⟩ st =
      (LoopOutcome.panicked, st, [Event.heartbeat, Event.acceptWait 500]) := by
  simp [listenerLoopIter, TIMEOUT_MS]

/-! ### Claims about the pending-connection registry -/

/-- C4 counterexample: with pending entry `(1 ↦ 42)`, the claim removes the
entry first; the racing expiry that then loses observes nothing and logs
NO warning (`false`) — refuting the claim's assertion that the losing
expiry logs a warning (the code only warns when the expiry itself removes
the entry). -/
theorem expire_after_claim_logs_no_warning :
    claimConn [(1, 42)] 1 = (some 42, []) ∧
    expireConn (claimConn [(1, 42)] 1).2 1 = (false, []) := by
  decide

/-- C4 amended: claim and expiry race to remove the same entry and removal
is exclusive: whichever runs first obtains the entry, while the loser
observes NotFound and is a no-op on the registry; a losing expiry is
silent (no warning), and it is the WINNING expiry that logs the
unclaimed-connection warning.  Either way the entry is removed exactly
once. -/
theorem registry_removal_exclusive (conns : List (Uuid × Conn)) (id : Uuid)
    (c : Conn) (hfound : mapLookup conns id = some c) :
    (claimConn conns id = (some c, mapRemove conns id) ∧
     expireConn (claimConn conns id).2 id = (false, mapRemove conns id)) ∧
    (expireConn conns id = (true, mapRemove conns id) ∧
     claimConn (expireConn conns id).2 id = (none, mapRemove conns id)) := by
  have hgone : mapLookup (mapRemove conns id) id = none :=
    mapLookup_mapRemove_self conns id
  refine ⟨⟨?_, ?_⟩, ?_, ?_⟩
  · simp [claimConn, hfound]
  · simp [claimConn, hfound, expireConn, hgone]
  · simp [expireConn, hfound]
  · simp [expireConn, hfound, claimConn, hgone]

theorem registry_removal_exclusive_witness :
    (claimConn [(1, 42)] 1 = (some 42, []) ∧
     expireConn (claimConn [(1, 42)] 1).2 1 = (false, [])) ∧
    (expireConn [(1, 42)] 1 = (true, []) ∧
     claimConn (expireConn [(1, 42)] 1).2 1 = (none, [])) :=
  registry_removal_exclusive [(1, 42)] 1 42 rfl

/-- C5: every accepted visitor connection leads to exactly one scheduled
expiry — the loop trace pairs each `insertConn` with one `scheduleExpiry`
of the same fresh identifier and the fixed 10-second TTL — and a
connection still pending when its TTL elapses is evicted by the expiry
(with the warning), after which any claim of its identifier observes
NotFound. -/
theorem expiry_scheduled_once_with_ttl (env : LoopEnv) (st : ServerState)
    (conns : List (Uuid × Conn)) (id : Uuid) (c : Conn) :
    ((listenerLoopIter env st).2.2.count
        (Event.scheduleExpiry env.newId EXPIRY_TTL_SECS) =
      (listenerLoopIter env st).2.2.count (Event.insertConn env.newId)) ∧
    (∀ i t, Event.scheduleExpiry i t ∈ (listenerLoopIter env st).2.2 →
      i = env.newId ∧ t = 10) ∧
    (mapLookup conns id = some c →
      expireConn conns id = (true, mapRemove conns id) ∧
      claimConn (mapRemove conns id) id = (none, mapRemove conns id)) := by
  refine ⟨?_, ?_, fun hfound => ?_⟩
  · obtain ⟨hb, ao, nid, nok⟩ := env
    cases hb <;> cases ao <;>
      simp [listenerLoopIter, TIMEOUT_MS, EXPIRY_TTL_SECS, List.count_cons]
  · intro i t hmem
    obtain ⟨hb, ao, nid, nok⟩ := env
    cases hb <;> cases ao <;>
      simp [listenerLoopIter, TIMEOUT_MS, EXPIRY_TTL_SECS] at hmem
    all_goals tauto
  · have hgone : mapLookup (mapRemove conns id) id = none :=
      mapLookup_mapRemove_self conns id
    exact ⟨by simp [expireConn, hfound], by simp [claimConn, hgone]⟩

theorem expiry_scheduled_once_with_ttl_witness :
    expireConn [(1, 42)] 1 = (true, []) ∧ claimConn [] 1 = (none, []) :=
  (expiry_scheduled_once_with_ttl ⟨true, AcceptOutcome.timedOut, 0, true⟩
      ⟨[], [], []⟩ [(1, 42)] 1 42).2.2 rfl

/-! ### Claims about the Accept (claim) branch -/

/-- C8: when the claimed identifier is found, the branch asserts the framed
write buffer empty at handoff, writes every read-ahead byte beyond the
message framing to the claimed visitor socket, and only then splices the
two sockets into one bidirectional relay — so the visitor socket receives
the read-ahead bytes strictly before the relayed claim-side bytes. -/
theorem accept_claim_flush_then_relay (parts : StreamParts)
    (ioSend visitorSend : List Byte) (id : Uuid) (st : ServerState) (c : Conn)
    (hfound : mapLookup st.conns id = some c) :
    handleAccept parts ioSend visitorSend id st =
      ({ st with conns := mapRemove st.conns id },
       [Event.assertWriteBuf parts.write_buf.isEmpty,
        Event.writeBytes parts.read_buf,
        Event.relayRun (parts.read_buf ++ ioSend) visitorSend]) ∧
    (parts.read_buf ++ ioSend).take parts.read_buf.length = parts.read_buf := by
  constructor
  · simp [handleAccept, hfound, proxy]
  · exact List.take_left parts.read_buf ioSend

theorem accept_claim_flush_then_relay_witness :
    handleAccept ⟨5, [7, 8], []⟩ [9] [11] 1 ⟨[(1, 42)], [], []⟩ =
      (⟨[], [], []⟩,
       [Event.assertWriteBuf true, Event.writeBytes [7, 8],
        Event.relayRun [7, 8, 9] [11]]) :=
  (accept_claim_flush_then_relay ⟨5, [7, 8], []⟩ [9] [11] 1
      ⟨[(1, 42)], [], []⟩ 42 rfl).1

/-! ### Claims about the acceptor loop -/

theorem acceptLoop_no_err (evs : List AcceptEvent)
    (h : ∀ e ∈ evs, e ≠ AcceptEvent.acceptErr) :
    (acceptLoop evs).1 = ListenResult.running := by
  induction evs with
  | nil => rfl
  | cons hd tl ih =>
    cases hd with
    | conn b => exact ih (fun e he => h e (List.mem_cons_of_mem _ he))
    | acceptErr => exact absurd rfl (h AcceptEvent.acceptErr (List.mem_cons_self _ _))

theorem acceptLoop_fatal_has_err (evs : List AcceptEvent)
    (h : (acceptLoop evs).1 ≠ ListenResult.running) :
    AcceptEvent.acceptErr ∈ evs := by
  induction evs with
  | nil => exact absurd rfl h
  | cons hd tl ih =>
    cases hd with
    | conn b => exact List.mem_cons_of_mem _ (ih h)
    | acceptErr => exact List.mem_cons_self _ _

/-- C7 counterexample: with the control port successfully bound, a failed
`accept` on the control listener still terminates the server run fatally —
so control-port bind failure at startup is NOT the only fatal condition. -/
theorem listen_fatal_on_accept_error :
    listen true [AcceptEvent.acceptErr] = (ListenResult.fatalAcceptErr, []) ∧
    ListenResult.fatalAcceptErr ≠ ListenResult.fatalBindErr := by
  decide

/-- C7 amended: no error in a detached per-connection handler (hence in any
per-tunnel listener task it spawns) propagates to the acceptor loop or
changes the server's fate — a failed handler is only logged — and the
fatal conditions of the server are exactly control-port bind failure at
startup and a failed `accept` on the control listener. -/
theorem listen_error_containment (bindOk : Bool) (evs : List AcceptEvent) :
    ((∀ e ∈ evs, e ≠ AcceptEvent.acceptErr) → bindOk = true →
      (listen bindOk evs).1 = ListenResult.running) ∧
    ((listen bindOk evs).1 ≠ ListenResult.running →
      bindOk = false ∨ AcceptEvent.acceptErr ∈ evs) ∧
    (∀ b, (acceptLoop (AcceptEvent.conn b :: evs)).1 = (acceptLoop evs).1) := by
  refine ⟨fun hno hbind => ?_, fun hfatal => ?_, fun b => rfl⟩
  · rw [hbind]
    show (acceptLoop evs).1 = ListenResult.running
    exact acceptLoop_no_err evs hno
  · cases hbindv : bindOk with
    | false => exact Or.inl rfl
    | true =>
      rw [hbindv] at hfatal
      exact Or.inr (acceptLoop_fatal_has_err evs hfatal)

theorem listen_error_containment_witness :
    (listen true [AcceptEvent.conn true, AcceptEvent.conn false]).1 =
      ListenResult.running :=
  (listen_error_containment true [AcceptEvent.conn true, AcceptEvent.conn false]).1
    (by decide) rfl

end Bore
